import Mathlib

/-!
Verification of the honeypot log statistics pipeline (seckid/blog).

The pipeline lives in one script: a line parser for the "fortipot" log
grammar (`LOG_PARSERS.fortipot`, `stripAddrPrefix`), a line splitter
(`parseLogLines`), a file selector (`listLogFiles` name filtering and
sorting, `filterFilesByDate`), a fetch layer (`listLogFiles` error path,
`fetchLogContent`), and an aggregation fold (`aggregate`).

Strings are modelled as `List Char` (one entry per code point; the script
only ever handles such text), JavaScript objects used as string-keyed
counters as association lists in key insertion order, and the fetch layer's
responses as explicit data so the error paths are plain functions.
-/

namespace HoneypotStats

/-- Whitespace class of JavaScript (`\s`, and what `trim` removes). -/
def jsIsSpace (c : Char) : Bool :=
  c = ' ' || c = '\t' || c = '\n' || c.toNat = 11 || c.toNat = 12 || c = '\r' ||
  c.toNat = 0xa0 || c.toNat = 0x1680 || (0x2000 ≤ c.toNat && c.toNat ≤ 0x200a) ||
  c.toNat = 0x2028 || c.toNat = 0x2029 || c.toNat = 0x202f || c.toNat = 0x205f ||
  c.toNat = 0x3000 || c.toNat = 0xfeff

/-- Drop matching characters from the end of a list. -/
def dropTrail (p : Char → Bool) (s : List Char) : List Char :=
  (s.reverse.dropWhile p).reverse

/-- JavaScript `String.prototype.trim`. -/
def jsTrim (s : List Char) : List Char :=
  dropTrail jsIsSpace (s.dropWhile jsIsSpace)

/-- JavaScript `String.prototype.split` with a one-character separator:
every occurrence separates, so `"a||b"` gives `["a", "", "b"]` and the
empty string gives `[""]`. -/
def splitOnChar (sep : Char) : List Char → List (List Char)
  | [] => [[]]
  | c :: rest =>
    let r := splitOnChar sep rest
    if c = sep then [] :: r
    else
      match r with
      | [] => [[c]]
      | h :: t => (c :: h) :: t

/-- JavaScript `Array.prototype.join("|")`. -/
def joinPipe (parts : List (List Char)) : List Char :=
  List.intercalate [ '|' ] parts

/-- JavaScript `String.prototype.includes`: `needle` occurs contiguously
inside the second argument. -/
def containsSeq (needle : List Char) : List Char → Bool
  | [] => needle.isEmpty
  | c :: rest => needle.isPrefixOf (c :: rest) || containsSeq needle rest

/-- Characters the JavaScript regex metacharacter `.` matches (no `s`
flag): everything but the four line terminators. -/
def dotChar (c : Char) : Bool :=
  !(c = '\n' || c = '\r' || c.toNat = 0x2028 || c.toNat = 0x2029)

/-- Consume the regex `/^\s*\(\s*['"]?[\d.]+['"]?\s*,\s*\d+\)\s*/` from the
front of the list and return the remainder; `none` when the anchored
pattern does not match. Every character class here is disjoint from what
follows it, so the greedy left-to-right scan is the regex's one match. -/
def matchAddrTuple (s : List Char) : Option (List Char) :=
  match (s.dropWhile jsIsSpace) with
  | '(' :: s2 =>
    let s3 := s2.dropWhile jsIsSpace
    let s4 := match s3 with
      | c :: r => if c = '\'' || c = '"' then r else s3
      | [] => s3
    let ipChars := s4.takeWhile (fun c => c.isDigit || c = '.')
    let s5 := s4.dropWhile (fun c => c.isDigit || c = '.')
    if ipChars.isEmpty then none
    else
      let s6 := match s5 with
        | c :: r => if c = '\'' || c = '"' then r else s5
        | [] => s5
      match (s6.dropWhile jsIsSpace) with
      | ',' :: s8 =>
        let s9 := s8.dropWhile jsIsSpace
        if (s9.takeWhile Char.isDigit).isEmpty then none
        else
          match (s9.dropWhile Char.isDigit) with
          | ')' :: s11 => some (s11.dropWhile jsIsSpace)
          | _ => none
      | _ => none
  | _ => none

/-- Source `stripAddrPrefix`: remove one leading `('ip', port)`-shaped
tuple (the regex is anchored and `replace` is not global, so at most one
removal happens), then trim; a string with no such prefix is only
trimmed. -/
def stripAddrPrefix (s : List Char) : List Char :=
  match matchAddrTuple s with
  | some rest => jsTrim rest
  | none => jsTrim s

/-- The regex `/^(\d{4}-\d{2}-\d{2})/` applied to the timestamp field:
the captured leading date, if the first ten characters have that shape. -/
def leadingDate (ts : List Char) : Option (List Char) :=
  match ts with
  | y1 :: y2 :: y3 :: y4 :: h1 :: m1 :: m2 :: h2 :: d1 :: d2 :: _ =>
    if y1.isDigit && y2.isDigit && y3.isDigit && y4.isDigit && h1 = '-' &&
        m1.isDigit && m2.isDigit && h2 = '-' && d1.isDigit && d2.isDigit then
      some [y1, y2, y3, y4, h1, m1, m2, h2, d1, d2]
    else none
  | _ => none

/-- The literal `LOGIN username=` the parser looks for. -/
def loginMarker : List Char := "LOGIN username=".data

/-- The literal ` password=` of the credential regex. -/
def pwMarker : List Char := " password=".data

/-- Lazy part of `/LOGIN username=(.+?) password=(.*)$/` at a fixed start:
grow the username capture one character at a time (each must be matched by
`.`) and stop at the first point where ` password=` follows and the rest of
the line is all `.`-matchable; that rest is the password capture. -/
def loginTryAt (acc : List Char) : List Char → Option (List Char × List Char)
  | [] => none
  | c :: rest =>
    if dotChar c then
      if pwMarker.isPrefixOf rest && (rest.drop pwMarker.length).all dotChar then
        some (acc ++ [c], rest.drop pwMarker.length)
      else loginTryAt (acc ++ [c]) rest
    else none

/-- The regex `/LOGIN username=(.+?) password=(.*)$/`: try a match at each
start position from the left, returning the captures of the first position
where the whole pattern succeeds. -/
def loginRegex : List Char → Option (List Char × List Char)
  | [] => none
  | c :: rest =>
    if loginMarker.isPrefixOf (c :: rest) then
      match loginTryAt [] ((c :: rest).drop loginMarker.length) with
      | some r => some r
      | none => loginRegex rest
    else loginRegex rest

/-- Match `/CVE-\d{4}-\d+/` anchored at the front of the list, returning
the matched text (`\d+` is greedy, so the maximal digit run). -/
def cveAt (s : List Char) : Option (List Char) :=
  match s with
  | 'C' :: 'V' :: 'E' :: '-' :: a :: b :: c :: d :: '-' :: rest =>
    if a.isDigit && b.isDigit && c.isDigit && d.isDigit &&
        !(rest.takeWhile Char.isDigit).isEmpty then
      some ('C' :: 'V' :: 'E' :: '-' :: a :: b :: c :: d :: '-' ::
        rest.takeWhile Char.isDigit)
    else none
  | _ => none

/-- The regex `/CVE-\d{4}-\d+/` unanchored: leftmost match. -/
def findCve : List Char → Option (List Char)
  | [] => none
  | c :: rest =>
    match cveAt (c :: rest) with
    | some t => some t
    | none => findCve rest

/-- The literal `GET ` marker. -/
def getMarker : List Char := "GET ".data

/-- Classification of an address-stripped fortipot message, exactly the
`if`/`else if` chain of `LOG_PARSERS.fortipot`: the returned pair is the
event type text (before the final `|| "other"` defaulting) and the
credential captures when the LOGIN pattern matched, both captures trimmed. -/
def classifyMsg (message : List Char) : List Char × Option (List Char × List Char) :=
  if containsSeq loginMarker message then
    match loginRegex message with
    | some (u, p) => ("LOGIN".data, some (jsTrim u, jsTrim p))
    | none => ("LOGIN".data, none)
  else if getMarker.isPrefixOf message then
    let path := (message.drop 4).takeWhile (fun c => !jsIsSpace c)
    (getMarker ++ (if path.isEmpty then [ '/' ] else path), none)
  else
    match findCve message with
    | some cve => (cve, none)
    | none => (message, none)

/-- Event-type normalization as the specification words it, for comparison
with the source's chain: first match wins among (1) the `LOGIN username=`
marker making the type `LOGIN`, (2) a leading `GET ` making it `GET ` plus
the path token (default `/`), (3) a `CVE-YYYY-NNNN` token making it that
identifier, (4) the literal message text, with `other` for an empty
message. -/
def specClassify (message : List Char) : List Char :=
  if containsSeq loginMarker message then "LOGIN".data
  else if getMarker.isPrefixOf message then
    let path := (message.drop 4).takeWhile (fun c => !jsIsSpace c)
    getMarker ++ (if path.isEmpty then [ '/' ] else path)
  else
    match findCve message with
    | some cve => cve
    | none => if message.isEmpty then "other".data else message

/-- One parsed log record, the object `LOG_PARSERS.fortipot` builds: the
`loginUsername`/`loginPassword` properties exist only on LOGIN lines whose
credential pattern matched (the source adds both together, so each is an
`Option`, `none` meaning the property is absent). -/
structure Event where
  date : Option (List Char)
  ip : List Char
  eventType : List Char
  ts : List Char
  loginUsername : Option (List Char) := none
  loginPassword : Option (List Char) := none
deriving DecidableEq, Repr

/-- Source `LOG_PARSERS.fortipot`: split on `|`, reject fewer than four
fields, take timestamp and source IP, rejoin the message fields, strip the
address tuple once, extract the leading date, classify, and emit the event
(`eventType || "other"` defaults an empty message text). -/
def fortipot (line : List Char) : Option Event :=
  let parts := splitOnChar '|' line
  if parts.length < 4 then none
  else
    let ts := jsTrim (parts.getD 0 [])
    let ip := jsTrim (parts.getD 2 [])
    let message := stripAddrPrefix (jsTrim (joinPipe (parts.drop 3)))
    let cls := classifyMsg message
    some { date := leadingDate ts
           ip := ip
           eventType := if cls.1.isEmpty then "other".data else cls.1
           ts := ts
           loginUsername := cls.2.map Prod.fst
           loginPassword := cls.2.map Prod.snd }

/-- Source `LOG_PARSERS.ssh`: placeholder, always `null`. -/
def sshStub (_line : List Char) : Option Event := none

/-- Source `LOG_PARSERS.rdp`: placeholder, always `null`. -/
def rdpStub (_line : List Char) : Option Event := none

/-- Source `LOG_PARSERS.ftp`: placeholder, always `null`. -/
def ftpStub (_line : List Char) : Option Event := none

/-- The `LOG_PARSERS` object as a lookup: `some` a grammar for its four
declared keys, `none` for any other tag. -/
def LOG_PARSERS (tag : List Char) : Option (List Char → Option Event) :=
  if tag = "fortipot".data then some fortipot
  else if tag = "ssh".data then some sshStub
  else if tag = "rdp".data then some rdpStub
  else if tag = "ftp".data then some ftpStub
  else none

/-- Loop body of `parseLogLines`: trim each line, skip blank ones, keep
every line the grammar parses. -/
def parseLines (parser : List Char → Option Event) : List (List Char) → List Event
  | [] => []
  | l :: rest =>
    let t := jsTrim l
    if t.isEmpty then parseLines parser rest
    else
      match parser t with
      | some e => e :: parseLines parser rest
      | none => parseLines parser rest

/-- Remove the single carriage return the regex `\r?` consumes before a
line feed separator. -/
def dropTrailCR (l : List Char) : List Char :=
  if l.getLast? = some '\r' then l.dropLast else l

/-- JavaScript `text.split(/\r?\n/)`. -/
def splitNewlines (text : List Char) : List (List Char) :=
  (splitOnChar '\n' text).map dropTrailCR

/-- Source `parseLogLines`: pick the grammar for the honeypot tag, with
`LOG_PARSERS[honeypotType] || LOG_PARSERS.fortipot` falling back to the
fortipot grammar for an unknown tag, and run it over the lines. -/
def parseLogLines (text : List Char) (honeypotType : List Char) : List Event :=
  parseLines ((LOG_PARSERS honeypotType).getD fortipot) (splitNewlines text)

/-- One record of the `loginAttempts` array the aggregation builds. -/
structure LoginAttempt where
  ts : List Char
  date : Option (List Char)
  ip : List Char
  username : List Char
  password : List Char
deriving DecidableEq, Repr

/-- Running state of the `aggregate` loop: the three counter objects
(association lists in key insertion order) and the credential list. -/
structure AggState where
  byDate : List (List Char × Nat)
  byIp : List (List Char × Nat)
  byEvent : List (List Char × Nat)
  loginAttempts : List LoginAttempt
deriving DecidableEq, Repr

/-- The object `aggregate` returns. -/
structure AggResult where
  byDate : List (List Char × Nat)
  byIp : List (List Char × Nat)
  byEvent : List (List Char × Nat)
  total : Nat
  loginAttempts : List LoginAttempt
deriving DecidableEq, Repr

/-- JavaScript `obj[k] = (obj[k] || 0) + 1` on an object used as a counter:
increment the key in place or append it with count one. -/
def bump (m : List (List Char × Nat)) (k : List Char) : List (List Char × Nat) :=
  match m with
  | [] => [(k, 1)]
  | (k', v) :: rest => if k' = k then (k', v + 1) :: rest else (k', v) :: bump rest k

/-- JavaScript truthiness of `e.date` (`undefined` and the empty string are
falsy; the parser in fact never produces `some []`). -/
def dateKey (e : Event) : Option (List Char) :=
  match e.date with
  | some d => if d.isEmpty then none else some d
  | none => none

/-- The `byDate` update of one loop iteration: `if (e.date) byDate[e.date]++`. -/
def dateBump (m : List (List Char × Nat)) (e : Event) : List (List Char × Nat) :=
  match dateKey e with
  | some d => bump m d
  | none => m

/-- The event-type key `e.eventType || 'other'`. -/
def evKey (e : Event) : List Char :=
  if e.eventType.isEmpty then "other".data else e.eventType

/-- The loop's credential test `e.loginUsername !== undefined ||
e.loginPassword !== undefined`. -/
def hasCred (e : Event) : Bool :=
  e.loginUsername.isSome || e.loginPassword.isSome

/-- The record pushed onto `loginAttempts` (`?? ''` defaults an absent
side of the pair to the empty string). -/
def mkAttempt (e : Event) : LoginAttempt :=
  { ts := e.ts, date := e.date, ip := e.ip,
    username := e.loginUsername.getD [], password := e.loginPassword.getD [] }

/-- One iteration of the `aggregate` loop over one event. -/
def aggStep (st : AggState) (e : Event) : AggState :=
  { byDate := dateBump st.byDate e
    byIp := if e.ip.isEmpty then st.byIp else bump st.byIp e.ip
    byEvent := bump st.byEvent (evKey e)
    loginAttempts :=
      if hasCred e then st.loginAttempts ++ [mkAttempt e] else st.loginAttempts }

/-- Source `aggregate`: fold the loop over the entries and return the
result object, whose `total` is `entries.length`. -/
def aggregate (entries : List Event) : AggResult :=
  let st := entries.foldl aggStep ⟨[], [], [], []⟩
  { byDate := st.byDate, byIp := st.byIp, byEvent := st.byEvent,
    total := entries.length, loginAttempts := st.loginAttempts }

/-- Sum of a counter object's values. -/
def sumVals (m : List (List Char × Nat)) : Nat :=
  (m.map Prod.snd).sum

/-- Sample event with unset date and empty source IP. -/
def evNoIp : Event :=
  { date := none, ip := [], eventType := "x".data, ts := [] }

/-- Sample event with unset date and a nonempty source IP. -/
def evWithIp : Event :=
  { date := none, ip := "9.9.9.9".data, eventType := "x".data, ts := [] }

/-- Sample credential-carrying event whose username is the empty string. -/
def evCred : Event :=
  { date := none, ip := "1.2.3.4".data, eventType := "LOGIN".data,
    ts := "t".data, loginUsername := some [], loginPassword := some "x".data }

/-- Sample event carrying no credential pair. -/
def evPlain : Event :=
  { date := none, ip := "5.6.7.8".data, eventType := "other".data, ts := "u".data }

/-- Credential record of a LOGIN line with an explicitly empty password. -/
def attemptEmptyPw : LoginAttempt :=
  { ts := "2026-02-18T00:00:00".data, date := some "2026-02-18".data,
    ip := "1.2.3.4".data, username := "a".data, password := [] }

/-- Credential record of a LOGIN line whose username text is whitespace
only, trimming to the empty string. -/
def attemptEmptyUser : LoginAttempt :=
  { ts := "2026-02-18T00:00:00".data, date := some "2026-02-18".data,
    ip := "1.2.3.4".data, username := [], password := "x".data }

/-- One entry of the GitHub contents listing, reduced to the two properties
`listLogFiles` reads. -/
structure RepoEntry where
  type : List Char
  name : List Char
deriving DecidableEq, Repr

/-- The file-name test `/^\d{4}-\d{2}-\d{2}_.*\.log$/`: a ten-character
date shape, an underscore, any run of `.`-matchable characters, and the
literal suffix `.log` at the very end. -/
def matchesLogName (name : List Char) : Bool :=
  match name with
  | y1 :: y2 :: y3 :: y4 :: h1 :: m1 :: m2 :: h2 :: d1 :: d2 :: u :: rest =>
    y1.isDigit && y2.isDigit && y3.isDigit && y4.isDigit && h1 = '-' &&
    m1.isDigit && m2.isDigit && h2 = '-' && d1.isDigit && d2.isDigit &&
    u = '_' && ".log".data.isSuffixOf rest &&
    (rest.take (rest.length - 4)).all dotChar
  | _ => false

/-- Lexicographic order on code points, the default JavaScript
`Array.prototype.sort()` comparison for the ASCII names at hand. -/
def lexLe : List Char → List Char → Bool
  | [], _ => true
  | _ :: _, [] => false
  | a :: as, b :: bs =>
    if a.toNat < b.toNat then true
    else if b.toNat < a.toNat then false
    else lexLe as bs

/-- The pure part of `listLogFiles`: keep the listing entries of type
`file` whose name matches the log-name pattern, and sort the names. -/
def logFileNames (data : List RepoEntry) : List (List Char) :=
  List.insertionSort (fun a b => lexLe a b = true)
    ((data.filter (fun f => f.type = "file".data && matchesLogName f.name)).map RepoEntry.name)

/-- The listing response, decoded: `ok`/`status` of the HTTP response and
`some` entries when the JSON body was an array, `none` otherwise. -/
structure ListingResponse where
  ok : Bool
  status : Nat
  data : Option (List RepoEntry)
deriving Repr

/-- Source `listLogFiles` as a function of the response it got: a non-ok
response throws `Failed to list <folder>: <status>`, a non-array body
throws `Invalid API response`, otherwise the filtered sorted names are
returned. -/
def listLogFiles (folder : List Char) (res : ListingResponse) :
    Except (List Char) (List (List Char)) :=
  if !res.ok then
    .error ("Failed to list ".data ++ folder ++ ": ".data ++ (toString res.status).data)
  else
    match res.data with
    | none => .error "Invalid API response".data
    | some data => .ok (logFileNames data)

/-- A raw-content response: `ok`/`status`, and `some` text when the body
could be read, `none` when reading it failed. -/
structure HttpResponse where
  ok : Bool
  status : Nat
  body : Option (List Char)
deriving Repr

/-- Source `fetchLogContent` as a function of the response it got: the
body text, degraded to the empty string when the response is not ok or
reading the body failed; it never throws. -/
def fetchLogContent (res : HttpResponse) : List Char :=
  if !res.ok then []
  else
    match res.body with
    | none => []
    | some text => text

/-- Source `filterFilesByDate`: keep the files whose first ten characters
lie between the window's bounds (inclusive string comparison). -/
def filterFilesByDate (files : List (List Char)) (startStr endStr : List Char) :
    List (List Char) :=
  files.filter (fun f => lexLe startStr (f.take 10) && lexLe (f.take 10) endStr)

/-- Loop of `loadAndParseLogs` over the selected files: each file's fetched
content is parsed and the entries concatenated in file order. -/
def collectEntries (fetch : List Char → HttpResponse) (tag : List Char)
    (files : List (List Char)) : List Event :=
  (files.map (fun fn => parseLogLines (fetchLogContent (fetch fn)) tag)).flatten

/-- Source `loadAndParseLogs`: list, filter by date window, fetch and parse
each file, aggregate. The parser tag is `folder === 'fortipot' ? 'fortipot'
: folder`. -/
def loadAndParseLogs (folder : List Char) (res : ListingResponse)
    (fetch : List Char → HttpResponse) (startStr endStr : List Char) :
    Except (List Char) AggResult :=
  (listLogFiles folder res).map fun files =>
    aggregate (collectEntries fetch
      (if folder = "fortipot".data then "fortipot".data else folder)
      (filterFilesByDate files startStr endStr))

example : fortipot "2026-02-18T00:00:00|INFO|1.2.3.4|LOGIN username=admin password=1234".data =
    some { date := some "2026-02-18".data, ip := "1.2.3.4".data,
           eventType := "LOGIN".data, ts := "2026-02-18T00:00:00".data,
           loginUsername := some "admin".data, loginPassword := some "1234".data } := by
  decide

example : fortipot "2026-02-18T00:00:00|INFO|1.2.3.4|GET /api/v1/users HTTP/1.1".data =
    some { date := some "2026-02-18".data, ip := "1.2.3.4".data,
           eventType := "GET /api/v1/users".data, ts := "2026-02-18T00:00:00".data } := by
  decide

example : (fortipot "2026-02-18T00:00:00|INFO|1.2.3.4|exploit attempt CVE-2023-1234 detected".data).map
    Event.eventType = some "CVE-2023-1234".data := by
  decide

example : (fortipot "2026-02-18T00:00:00|INFO|1.2.3.4|('5.6.7.8', 443) GET /x".data).map
    Event.eventType = some "GET /x".data := by
  decide

/-! Helper lemmas about the aggregation fold. -/

/-- Incrementing a counter key adds one to the sum of its values. -/
lemma sumVals_bump (m : List (List Char × Nat)) (k : List Char) :
    sumVals (bump m k) = sumVals m + 1 := by
  induction m with
  | nil => simp [bump, sumVals]
  | cons kv rest ih =>
    obtain ⟨k', v⟩ := kv
    by_cases h : k' = k <;> simp [bump, h, sumVals] at ih ⊢ <;> omega

/-- The fold adds one to the event-type counter sum per event. -/
lemma aggFold_byEvent (es : List Event) (st : AggState) :
    sumVals ((es.foldl aggStep st).byEvent) = sumVals st.byEvent + es.length := by
  induction es generalizing st with
  | nil => simp
  | cons e rest ih =>
    rw [List.foldl_cons, ih]
    simp [aggStep, sumVals_bump]
    omega

/-- The fold adds one to the IP counter sum per event with a truthy IP. -/
lemma aggFold_byIp (es : List Event) (st : AggState) :
    sumVals ((es.foldl aggStep st).byIp) =
      sumVals st.byIp + es.countP (fun e => !e.ip.isEmpty) := by
  induction es generalizing st with
  | nil => simp
  | cons e rest ih =>
    rw [List.foldl_cons, ih, List.countP_cons]
    by_cases h : e.ip.isEmpty <;> (simp [aggStep, h, sumVals_bump]; try omega)

/-- The date counter of the fold only ever sees the `dateBump` updates. -/
lemma aggFold_byDate (es : List Event) (st : AggState) :
    (es.foldl aggStep st).byDate = es.foldl dateBump st.byDate := by
  induction es generalizing st with
  | nil => rfl
  | cons e rest ih => rw [List.foldl_cons, List.foldl_cons, ih]; rfl

/-- The fold appends exactly the credential-carrying events' records, in
input order. -/
lemma aggFold_attempts (es : List Event) (st : AggState) :
    (es.foldl aggStep st).loginAttempts =
      st.loginAttempts ++ (es.filter hasCred).map mkAttempt := by
  induction es generalizing st with
  | nil => simp
  | cons e rest ih =>
    rw [List.foldl_cons, ih]
    by_cases h : hasCred e <;> simp [aggStep, h, List.filter_cons]

/-- A member that fails the predicate makes the count strictly smaller than
the length. -/
lemma countP_lt_length_of_mem {α : Type} (p : α → Bool) {e : α} {es : List α}
    (hmem : e ∈ es) (hp : p e = false) : es.countP p < es.length := by
  induction es with
  | nil => cases hmem
  | cons a rest ih =>
    rw [List.countP_cons]
    rcases List.mem_cons.mp hmem with h | h
    · subst h
      rw [hp]
      simpa using Nat.lt_succ_of_le (List.countP_le_length p)
    · have := ih h
      by_cases hpa : p a <;> (simp [hpa]; omega)

/-! Helper lemmas about the order used for sorting file names, the
classification chain and the line loop. -/

/-- Unfolding of the code-point order on nonempty lists. -/
lemma lexLe_cons (x y : Char) (xs ys : List Char) :
    lexLe (x :: xs) (y :: ys) = true ↔
      x.toNat < y.toNat ∨ (x.toNat = y.toNat ∧ lexLe xs ys = true) := by
  simp only [lexLe]
  by_cases h1 : x.toNat < y.toNat
  · simp [h1]
  · by_cases h2 : y.toNat < x.toNat
    · rw [if_neg h1, if_pos h2]
      constructor
      · intro h; cases h
      · rintro (h | ⟨h, _⟩) <;> omega
    · have he : x.toNat = y.toNat := by omega
      rw [if_neg h1, if_neg h2]
      simp [he]

/-- Totality of the code-point order. -/
lemma lexLe_total (a b : List Char) : lexLe a b = true ∨ lexLe b a = true := by
  induction a generalizing b with
  | nil => left; rfl
  | cons x xs ih =>
    cases b with
    | nil => right; rfl
    | cons y ys =>
      rcases Nat.lt_trichotomy x.toNat y.toNat with h | h | h
      · exact Or.inl ((lexLe_cons x y xs ys).mpr (Or.inl h))
      · rcases ih ys with hy | hy
        · exact Or.inl ((lexLe_cons x y xs ys).mpr (Or.inr ⟨h, hy⟩))
        · exact Or.inr ((lexLe_cons y x ys xs).mpr (Or.inr ⟨h.symm, hy⟩))
      · exact Or.inr ((lexLe_cons y x ys xs).mpr (Or.inl h))

/-- Transitivity of the code-point order. -/
lemma lexLe_trans {a b c : List Char} (hab : lexLe a b = true)
    (hbc : lexLe b c = true) : lexLe a c = true := by
  induction a generalizing b c with
  | nil => rfl
  | cons x xs ih =>
    cases b with
    | nil => simp [lexLe] at hab
    | cons y ys =>
      cases c with
      | nil => simp [lexLe] at hbc
      | cons z zs =>
        rw [lexLe_cons] at hab hbc ⊢
        rcases hab with h1 | ⟨h1, hab'⟩ <;> rcases hbc with h2 | ⟨h2, hbc'⟩
        · exact Or.inl (by omega)
        · exact Or.inl (by omega)
        · exact Or.inl (by omega)
        · exact Or.inr ⟨by omega, ih hab' hbc'⟩

instance : IsTotal (List Char) (fun a b => lexLe a b = true) := ⟨lexLe_total⟩

instance : IsTrans (List Char) (fun a b => lexLe a b = true) :=
  ⟨fun _ _ _ => lexLe_trans⟩

/-- An anchored CVE match is never the empty string. -/
lemma cveAt_isEmpty {s t : List Char} (h : cveAt s = some t) : t.isEmpty = false := by
  unfold cveAt at h
  split at h
  · split at h
    · injection h with h'
      subst h'
      rfl
    · exact Option.noConfusion h
  · exact Option.noConfusion h

/-- A leftmost CVE match is never the empty string. -/
lemma findCve_isEmpty {m t : List Char} (h : findCve m = some t) : t.isEmpty = false := by
  induction m with
  | nil => exact Option.noConfusion h
  | cons c rest ih =>
    rw [findCve] at h
    cases hc : cveAt (c :: rest) with
    | some u => rw [hc] at h; injection h with h'; subst h'; exact cveAt_isEmpty hc
    | none => rw [hc] at h; exact ih h

/-- Appending anything to the `GET ` marker stays nonempty. -/
lemma getMarker_append_isEmpty (x : List Char) : (getMarker ++ x).isEmpty = false := rfl

/-- The `eventType || 'other'` defaulting applied to the classification
chain agrees with the specification's reading of steps 1–4: LOGIN first,
then GET, then CVE, then the literal message with `other` for an empty
one. -/
lemma classify_default_eq_spec (m : List Char) :
    (if (classifyMsg m).1.isEmpty then "other".data else (classifyMsg m).1) =
      specClassify m := by
  unfold classifyMsg specClassify
  by_cases h1 : containsSeq loginMarker m
  · cases hr : loginRegex m with
    | none => simp [h1, hr]
    | some r => obtain ⟨u, p⟩ := r; simp [h1, hr]
  · by_cases h2 : getMarker.isPrefixOf m
    · simp [h1, h2, getMarker_append_isEmpty]
    · cases hc : findCve m with
      | some cve => simp [h1, h2, hc, findCve_isEmpty hc]
      | none => by_cases h3 : m.isEmpty <;> simp [h1, h2, hc, h3]

/-- Blank lines are dropped by the line loop: filtering them away first
changes nothing. -/
lemma parseLines_filter_blank (parser : List Char → Option Event)
    (lines : List (List Char)) :
    parseLines parser lines =
      parseLines parser (lines.filter (fun l => !(jsTrim l).isEmpty)) := by
  induction lines with
  | nil => rfl
  | cons l rest ih =>
    by_cases h : (jsTrim l).isEmpty
    · simpa [parseLines, List.filter_cons, h] using ih
    · cases hp : parser (jsTrim l) <;>
        simp [parseLines, List.filter_cons, h, hp, ih]

/-- Projection of `aggregate` onto its date counter. -/
lemma aggregate_byDate (entries : List Event) :
    (aggregate entries).byDate = (entries.foldl aggStep ⟨[], [], [], []⟩).byDate := rfl

/-- Projection of `aggregate` onto its IP counter. -/
lemma aggregate_byIp (entries : List Event) :
    (aggregate entries).byIp = (entries.foldl aggStep ⟨[], [], [], []⟩).byIp := rfl

/-- Projection of `aggregate` onto its event-type counter. -/
lemma aggregate_byEvent (entries : List Event) :
    (aggregate entries).byEvent = (entries.foldl aggStep ⟨[], [], [], []⟩).byEvent := rfl

/-- The total is the raw entry count. -/
lemma aggregate_total (entries : List Event) :
    (aggregate entries).total = entries.length := rfl

/-- Projection of `aggregate` onto its credential list. -/
lemma aggregate_attempts (entries : List Event) :
    (aggregate entries).loginAttempts =
      (entries.foldl aggStep ⟨[], [], [], []⟩).loginAttempts := rfl

/-- Inserting an event that carries no credential pair leaves the
credential list unchanged and bumps the event-type counter sum by one. -/
lemma aggregate_skip_noncred (pre post : List Event) (e : Event)
    (hc : hasCred e = false) :
    (aggregate (pre ++ e :: post)).loginAttempts =
      (aggregate (pre ++ post)).loginAttempts ∧
    sumVals (aggregate (pre ++ e :: post)).byEvent =
      sumVals (aggregate (pre ++ post)).byEvent + 1 := by
  constructor
  · rw [aggregate_attempts, aggregate_attempts, aggFold_attempts, aggFold_attempts,
      List.filter_append, List.filter_append, List.filter_cons, hc]
    simp
  · rw [aggregate_byEvent, aggregate_byEvent, aggFold_byEvent, aggFold_byEvent]
    simp
    omega

/-! The claims. -/

/-- C1: for every sequence of parsed events, the sum of the by-event-type
counter's values equals `totalEvents`, which is exactly the number of input
events; the sum of the by-IP counter's values is at most `totalEvents`, and
strictly below it when some event has an empty source IP. -/
theorem aggregate_sum_properties (entries : List Event) :
    sumVals (aggregate entries).byEvent = (aggregate entries).total ∧
    (aggregate entries).total = entries.length ∧
    sumVals (aggregate entries).byIp ≤ (aggregate entries).total ∧
    ((∃ e ∈ entries, e.ip = []) →
      sumVals (aggregate entries).byIp < (aggregate entries).total) := by
  refine ⟨?_, rfl, ?_, ?_⟩
  · rw [aggregate_byEvent, aggregate_total, aggFold_byEvent]
    simp [sumVals]
  · rw [aggregate_byIp, aggregate_total, aggFold_byIp]
    simpa [sumVals] using List.countP_le_length (fun e : Event => !e.ip.isEmpty)
  · rintro ⟨e, hmem, hnil⟩
    rw [aggregate_byIp, aggregate_total, aggFold_byIp]
    have hf : (fun e : Event => !e.ip.isEmpty) e = false := by simp [hnil]
    simpa [sumVals] using countP_lt_length_of_mem _ hmem hf

/-- Witness for C1 at a one-event input with an empty source IP: the strict
inequality holds there. -/
theorem aggregate_sum_properties_witness :
    sumVals (aggregate [evNoIp]).byIp < (aggregate [evNoIp]).total :=
  (aggregate_sum_properties [evNoIp]).2.2.2 ⟨evNoIp, List.mem_singleton.mpr rfl, rfl⟩

/-- C8 as stated is too strong: an event with unset date and empty source
IP is counted in `totalEvents` (and `eventsByType`) but not in
`eventsByIP` — aggregating it alone leaves the IP counter sum at zero, not
one. -/
theorem undated_event_not_in_byIp :
    evNoIp.date = none ∧ (aggregate [evNoIp]).total = 1 ∧
    ¬ sumVals (aggregate [evNoIp]).byIp = 1 := by
  decide

/-- C8 amended: an event with unset date contributes nothing to
`eventsByDate` but is still counted in `eventsByType` and `totalEvents`,
and in `eventsByIP` exactly when its source IP is nonempty. -/
theorem undated_event_tallies (pre post : List Event) (e : Event)
    (h : e.date = none) :
    (aggregate (pre ++ e :: post)).byDate = (aggregate (pre ++ post)).byDate ∧
    (aggregate (pre ++ e :: post)).total = (aggregate (pre ++ post)).total + 1 ∧
    sumVals (aggregate (pre ++ e :: post)).byEvent =
      sumVals (aggregate (pre ++ post)).byEvent + 1 ∧
    sumVals (aggregate (pre ++ e :: post)).byIp =
      sumVals (aggregate (pre ++ post)).byIp + (if e.ip.isEmpty then 0 else 1) := by
  refine ⟨?_, ?_, ?_, ?_⟩
  · rw [aggregate_byDate, aggregate_byDate, aggFold_byDate, aggFold_byDate,
      List.foldl_append, List.foldl_append, List.foldl_cons]
    have hskip : dateBump (List.foldl dateBump [] pre) e =
        List.foldl dateBump [] pre := by
      simp [dateBump, dateKey, h]
    rw [hskip]
  · rw [aggregate_total, aggregate_total]
    simp
    omega
  · rw [aggregate_byEvent, aggregate_byEvent, aggFold_byEvent, aggFold_byEvent]
    simp
    omega
  · rw [aggregate_byIp, aggregate_byIp, aggFold_byIp, aggFold_byIp,
      List.countP_append, List.countP_append, List.countP_cons]
    by_cases hip : e.ip.isEmpty <;> (simp [hip]; try omega)

/-- Witness for C8's amended statement at a one-event input whose date is
unset and whose IP is nonempty. -/
theorem undated_event_tallies_witness :
    (aggregate [evWithIp]).byDate = (aggregate []).byDate ∧
    (aggregate [evWithIp]).total = (aggregate []).total + 1 :=
  have h := undated_event_tallies [] [] evWithIp rfl
  ⟨h.1, h.2.1⟩

/-- C9: the credential list is exactly the credential-carrying events, in
input order, each projected to (timestamp, date, IP, username, password);
and the aggregation is a pure function of the entry list, so equal inputs
give identical results. -/
theorem credential_attempts_spec :
    (∀ entries : List Event,
      (aggregate entries).loginAttempts = (entries.filter hasCred).map mkAttempt) ∧
    (∀ entries entries' : List Event, entries = entries' →
      aggregate entries = aggregate entries') := by
  constructor
  · intro entries
    rw [aggregate_attempts, aggFold_attempts]
    simp
  · intro _ _ h
    rw [h]

/-- Witness for C9 at a two-event input: only the credential-carrying event
is kept, with its empty-string username preserved. -/
theorem credential_attempts_spec_witness :
    (aggregate [evCred, evPlain]).loginAttempts = [mkAttempt evCred] := by
  rw [credential_attempts_spec.1]
  decide

/-- C2: the fortipot grammar returns no event exactly for lines that split
into fewer than four pipe-separated fields (so every line with at least
four fields yields an event — the closed third conjunct shows one whose
timestamp has no parseable date prefix), and the line loop drops blank
lines before any grammar sees them. -/
theorem fortipot_none_iff_short :
    (∀ line : List Char, fortipot line = none ↔ (splitOnChar '|' line).length < 4) ∧
    (∀ (parser : List Char → Option Event) (lines : List (List Char)),
      parseLines parser lines =
        parseLines parser (lines.filter (fun l => !(jsTrim l).isEmpty))) ∧
    (fortipot "garbage|INFO|1.2.3.4|hello".data).map Event.date = some none := by
  refine ⟨?_, parseLines_filter_blank, by decide⟩
  intro line
  by_cases h : (splitOnChar '|' line).length < 4 <;> simp [fortipot, h]

/-- C3: for every fortipot line of at least four fields, the emitted event
type is the specification's priority classification (LOGIN > GET > CVE >
literal, `other` for empty) applied to the once-address-stripped rejoined
message, and a GET marker hidden behind the tuple prefix is classified as
GET after stripping (closed second conjunct). -/
theorem fortipot_strip_then_classify :
    (∀ line : List Char, 4 ≤ (splitOnChar '|' line).length →
      ∃ e, fortipot line = some e ∧
        e.eventType = specClassify
          (stripAddrPrefix (jsTrim (joinPipe ((splitOnChar '|' line).drop 3))))) ∧
    (fortipot "2026-02-18T00:00:00|INFO|1.2.3.4|('5.6.7.8', 443) GET /x".data).map
      Event.eventType = some "GET /x".data := by
  refine ⟨?_, by decide⟩
  intro line h
  have hlt : ¬ (splitOnChar '|' line).length < 4 := by omega
  unfold fortipot
  rw [if_neg hlt]
  exact ⟨_, rfl, classify_default_eq_spec _⟩

/-- Witness for C3 at a concrete four-field line. -/
theorem fortipot_strip_then_classify_witness :
    ∃ e, fortipot "2026-02-18T00:00:00|INFO|1.2.3.4|hello".data = some e ∧
      e.eventType = specClassify (stripAddrPrefix (jsTrim (joinPipe
        ((splitOnChar '|' "2026-02-18T00:00:00|INFO|1.2.3.4|hello".data).drop 3)))) :=
  fortipot_strip_then_classify.1 "2026-02-18T00:00:00|INFO|1.2.3.4|hello".data
    (by decide)

/-- C5: a fortipot line whose stripped message contains the `LOGIN
username=` marker but fails the full credential pattern still yields an
event typed LOGIN carrying no credential pair, and aggregating that event
bumps the type tallies by one without adding a credential record. -/
theorem login_partial_match_kept (line : List Char)
    (hlen : 4 ≤ (splitOnChar '|' line).length)
    (hmark : containsSeq loginMarker
      (stripAddrPrefix (jsTrim (joinPipe ((splitOnChar '|' line).drop 3)))) = true)
    (hfail : loginRegex
      (stripAddrPrefix (jsTrim (joinPipe ((splitOnChar '|' line).drop 3)))) = none) :
    ∃ e, fortipot line = some e ∧ e.eventType = "LOGIN".data ∧
      e.loginUsername = none ∧ e.loginPassword = none ∧
      ∀ pre post : List Event,
        (aggregate (pre ++ e :: post)).loginAttempts =
          (aggregate (pre ++ post)).loginAttempts ∧
        sumVals (aggregate (pre ++ e :: post)).byEvent =
          sumVals (aggregate (pre ++ post)).byEvent + 1 := by
  have hlt : ¬ (splitOnChar '|' line).length < 4 := by omega
  have hcls : classifyMsg
      (stripAddrPrefix (jsTrim (joinPipe ((splitOnChar '|' line).drop 3)))) =
      ("LOGIN".data, none) := by
    unfold classifyMsg
    simp [hmark, hfail]
  unfold fortipot
  rw [if_neg hlt]
  refine ⟨_, rfl, ?_, ?_, ?_, ?_⟩
  · show (if (classifyMsg _).1.isEmpty then "other".data else (classifyMsg _).1) = _
    rw [hcls]
    rfl
  · show (classifyMsg _).2.map Prod.fst = none
    rw [hcls]
    rfl
  · show (classifyMsg _).2.map Prod.snd = none
    rw [hcls]
    rfl
  · intro pre post
    apply aggregate_skip_noncred
    show hasCred _ = false
    simp [hasCred, hcls]

/-- Witness for C5 at a line whose message is the bare marker. -/
theorem login_partial_match_kept_witness :
    ∃ e, fortipot "2026-02-18T00:00:00|INFO|1.2.3.4|LOGIN username=".data = some e ∧
      e.eventType = "LOGIN".data ∧
      e.loginUsername = none ∧ e.loginPassword = none ∧
      ∀ pre post : List Event,
        (aggregate (pre ++ e :: post)).loginAttempts =
          (aggregate (pre ++ post)).loginAttempts ∧
        sumVals (aggregate (pre ++ e :: post)).byEvent =
          sumVals (aggregate (pre ++ post)).byEvent + 1 :=
  login_partial_match_kept "2026-02-18T00:00:00|INFO|1.2.3.4|LOGIN username=".data
    (by decide) (by decide) (by decide)

/-- C10: an unknown honeypot tag falls back to the fortipot grammar, so
`parseLogLines` under any tag outside the four declared ones behaves as
under the tag `fortipot`. -/
theorem unknown_tag_falls_back (tag : List Char)
    (h : tag ∉ [("fortipot".data : List Char), "ssh".data, "rdp".data, "ftp".data])
    (text : List Char) :
    parseLogLines text tag = parseLogLines text "fortipot".data := by
  have h1 : ¬ tag = "fortipot".data := fun e => h (by simp [e])
  have h2 : ¬ tag = "ssh".data := fun e => h (by simp [e])
  have h3 : ¬ tag = "rdp".data := fun e => h (by simp [e])
  have h4 : ¬ tag = "ftp".data := fun e => h (by simp [e])
  unfold parseLogLines LOG_PARSERS
  rw [if_neg h1, if_neg h2, if_neg h3, if_neg h4, if_pos rfl]
  rfl

/-- Witness for C10 at the unknown tag `zzz` over a well-formed line. -/
theorem unknown_tag_falls_back_witness :
    parseLogLines "a|b|c|d".data "zzz".data =
      parseLogLines "a|b|c|d".data "fortipot".data :=
  unknown_tag_falls_back "zzz".data (by decide) "a|b|c|d".data

/-- C6: the file selection is sorted; every selected name matches the
`YYYY-MM-DD_<anything>.log` pattern with its ten-character date prefix
inside the inclusive window; every listed entry of type `file` whose name
matches the pattern with date in window is selected; and `not-a-date.log`
is never selected, whatever the window. -/
theorem file_selection_spec (data : List RepoEntry) (startStr endStr : List Char) :
    List.Sorted (fun a b => lexLe a b = true)
      (filterFilesByDate (logFileNames data) startStr endStr) ∧
    (∀ n ∈ filterFilesByDate (logFileNames data) startStr endStr,
      matchesLogName n = true ∧ lexLe startStr (n.take 10) = true ∧
        lexLe (n.take 10) endStr = true) ∧
    (∀ f ∈ data, f.type = "file".data → matchesLogName f.name = true →
      lexLe startStr (f.name.take 10) = true →
      lexLe (f.name.take 10) endStr = true →
      f.name ∈ filterFilesByDate (logFileNames data) startStr endStr) ∧
    "not-a-date.log".data ∉ filterFilesByDate (logFileNames data) startStr endStr := by
  have hsound : ∀ n ∈ filterFilesByDate (logFileNames data) startStr endStr,
      matchesLogName n = true ∧ lexLe startStr (n.take 10) = true ∧
        lexLe (n.take 10) endStr = true := by
    intro n hn
    rw [filterFilesByDate, List.mem_filter] at hn
    obtain ⟨hmem, hcond⟩ := hn
    rw [logFileNames] at hmem
    obtain ⟨entry, hent, hname⟩ :=
      List.mem_map.mp ((List.perm_insertionSort _ _).mem_iff.mp hmem)
    rw [List.mem_filter] at hent
    have hprops := hent.2
    simp only [Bool.and_eq_true, decide_eq_true_eq] at hprops
    simp only [Bool.and_eq_true] at hcond
    exact ⟨hname ▸ hprops.2, hcond.1, hcond.2⟩
  refine ⟨?_, hsound, ?_, ?_⟩
  · rw [filterFilesByDate, logFileNames]
    exact List.Pairwise.filter _ (List.sorted_insertionSort _ _)
  · intro f hf htype hmatch hs he
    rw [filterFilesByDate, List.mem_filter]
    refine ⟨?_, by simp [hs, he]⟩
    rw [logFileNames]
    refine (List.perm_insertionSort _ _).mem_iff.mpr ?_
    exact List.mem_map.mpr
      ⟨f, List.mem_filter.mpr ⟨hf, by simp [htype, hmatch]⟩, rfl⟩
  · intro hmem
    exact absurd (hsound _ hmem).1 (by decide)

/-- Witness for C6 on a three-entry listing: the in-window dated file is
selected, and the result there is exactly the one sorted name. -/
theorem file_selection_spec_witness :
    ("2026-02-18_a.log".data : List Char) ∈
      filterFilesByDate (logFileNames
        [⟨"file".data, "2026-02-18_a.log".data⟩,
         ⟨"file".data, "not-a-date.log".data⟩,
         ⟨"file".data, "2020-01-01_b.log".data⟩])
        "2026-01-01".data "2026-12-31".data ∧
    filterFilesByDate (logFileNames
        [⟨"file".data, "2026-02-18_a.log".data⟩,
         ⟨"file".data, "not-a-date.log".data⟩,
         ⟨"file".data, "2020-01-01_b.log".data⟩])
        "2026-01-01".data "2026-12-31".data = ["2026-02-18_a.log".data] :=
  ⟨(file_selection_spec
      [⟨"file".data, "2026-02-18_a.log".data⟩,
       ⟨"file".data, "not-a-date.log".data⟩,
       ⟨"file".data, "2020-01-01_b.log".data⟩]
      "2026-01-01".data "2026-12-31".data).2.2.1
    ⟨"file".data, "2026-02-18_a.log".data⟩ (by simp) rfl (by decide) (by decide)
    (by decide),
   by decide⟩

/-- C7: a failed listing yields the error text containing the HTTP status
(the listing is the only fetch operation that can fail the run); a failed
content fetch never raises — it returns the empty string, whether the
response was non-ok or its body unreadable — the empty string parses to
zero events, and dropping a failed file from the collection loop leaves
every other file's entries unchanged. -/
theorem fetch_error_handling :
    (∀ (folder : List Char) (res : ListingResponse), res.ok = false →
      listLogFiles folder res = Except.error
        ("Failed to list ".data ++ folder ++ ": ".data ++ (toString res.status).data)) ∧
    (∀ res : HttpResponse, res.ok = false ∨ res.body = none →
      fetchLogContent res = []) ∧
    (∀ tag : List Char, parseLogLines [] tag = []) ∧
    (∀ (fetch : List Char → HttpResponse) (tag : List Char)
        (pre post : List (List Char)) (fn : List Char), (fetch fn).ok = false →
      collectEntries fetch tag (pre ++ fn :: post) =
        collectEntries fetch tag (pre ++ post)) := by
  refine ⟨?_, ?_, ?_, ?_⟩
  · intro folder res h
    rw [listLogFiles]
    simp [h]
  · intro res h
    rcases h with h | h <;> simp [fetchLogContent, h]
  · intro tag
    rfl
  · intro fetch tag pre post fn h
    have hzero : parseLogLines (fetchLogContent (fetch fn)) tag = [] := by
      have hempty : fetchLogContent (fetch fn) = [] := by
        simp [fetchLogContent, h]
      rw [hempty]
      rfl
    rw [collectEntries, collectEntries, List.map_append, List.map_append,
      List.map_cons, hzero]
    simp

/-- Witness for C7 at a 404 response: the listing error carries the
status and the content fetch degrades to the empty string. -/
theorem fetch_error_handling_witness :
    listLogFiles "fortipot".data ⟨false, 404, none⟩ = Except.error
      ("Failed to list ".data ++ "fortipot".data ++ ": ".data ++
        (toString (404 : Nat)).data) ∧
    fetchLogContent ⟨false, 404, none⟩ = [] :=
  ⟨fetch_error_handling.1 "fortipot".data ⟨false, 404, none⟩ rfl,
   fetch_error_handling.2.1 ⟨false, 404, none⟩ (Or.inl rfl)⟩

/-- C4 as stated fails on its own example: a fortipot LOGIN line whose
username is literally the empty string (`LOGIN username= password=x`)
parses to a LOGIN event carrying no credential pair — the credential
pattern's `(.+?)` needs at least one character before ` password=` — and
aggregating that event records nothing in `credentialAttempts`. -/
theorem empty_username_no_pair :
    (fortipot "2026-02-18T00:00:00|INFO|1.2.3.4|LOGIN username= password=x".data).map
      (fun e => (e.eventType, e.loginUsername, e.loginPassword)) =
      some ("LOGIN".data, none, none) ∧
    (aggregate (fortipot
      "2026-02-18T00:00:00|INFO|1.2.3.4|LOGIN username= password=x".data).toList).loginAttempts =
      [] := by
  decide

/-- C4 amended: pair presence, not non-emptiness, triggers recording. An
explicitly empty password yields a pair with empty password, a
whitespace-only username trims to a pair with empty username, and both
are recorded; but a literally empty username fails the credential pattern
(the counterexample), so that event carries no pair. In general the
recorded attempts are exactly the pair-carrying events. -/
theorem empty_credentials_amended :
    (fortipot "2026-02-18T00:00:00|INFO|1.2.3.4|LOGIN username=a password=".data).map
      (fun e => (e.loginUsername, e.loginPassword)) =
      some (some "a".data, some ([] : List Char)) ∧
    (aggregate (fortipot
      "2026-02-18T00:00:00|INFO|1.2.3.4|LOGIN username=a password=".data).toList).loginAttempts =
      [attemptEmptyPw] ∧
    (fortipot "2026-02-18T00:00:00|INFO|1.2.3.4|LOGIN username=  password=x".data).map
      (fun e => (e.loginUsername, e.loginPassword)) =
      some (some ([] : List Char), some "x".data) ∧
    (aggregate (fortipot
      "2026-02-18T00:00:00|INFO|1.2.3.4|LOGIN username=  password=x".data).toList).loginAttempts =
      [attemptEmptyUser] ∧
    (∀ entries : List Event,
      (aggregate entries).loginAttempts.length = entries.countP hasCred) := by
  refine ⟨by decide, by decide, by decide, by decide, ?_⟩
  intro entries
  rw [aggregate_attempts, aggFold_attempts]
  simp [List.countP_eq_length_filter]

end HoneypotStats
